import Mathlib

/-!
Shallow embedding of the paper-reader client (src/App.tsx,
src/services/geminiService.ts, src/components/FileUpload.tsx,
src/components/PdfViewer.tsx) and proofs about the claims of its
specification.

Modelling conventions: JavaScript strings are Lean `String`, the JS numbers
used for page arithmetic are `Int`, object URLs are `Nat` identifiers, and
runtime JSON values are an explicit inductive type.  Asynchronous handlers
are modelled as atomic steps that carry the outcome of their remote call as
an oracle parameter and return, besides the successor state, the ordered
list of externally observable actions the handler performed.  The one place
where intra-handler interleaving is essential (PdfViewer.renderPage, whose
cancellation protocol is the subject of a temporal claim) is modelled by an
explicit small-step scheduler over the suspension points of the handler.
-/

namespace PaperReader

/-- Boolean test that the character list `pat` begins the character list. -/
def listStartsWith : List Char → List Char → Bool
  | [], _ => true
  | _ :: _, [] => false
  | c :: cs, d :: ds => c == d && listStartsWith cs ds

/-- Boolean test that `pat` occurs as a contiguous run inside the list. -/
def listHasRun (pat : List Char) : List Char → Bool
  | [] => listStartsWith pat []
  | c :: t => listStartsWith pat (c :: t) || listHasRun pat t

/-- Model of JavaScript `String.prototype.includes`. -/
def jsIncludes (s sub : String) : Bool :=
  listHasRun sub.data s.data

theorem listStartsWith_append (pat a b : List Char)
    (h : listStartsWith pat a = true) : listStartsWith pat (a ++ b) = true := by
  induction pat generalizing a with
  | nil => simp [listStartsWith]
  | cons c cs ih =>
    cases a with
    | nil => simp [listStartsWith] at h
    | cons d ds =>
      simp only [listStartsWith, Bool.and_eq_true, beq_iff_eq] at h
      simp only [List.cons_append, listStartsWith, Bool.and_eq_true, beq_iff_eq]
      exact ⟨h.1, ih ds h.2⟩

theorem listHasRun_nil_pat (b : List Char) : listHasRun [] b = true := by
  cases b <;> simp [listHasRun, listStartsWith]

theorem listHasRun_append (pat a b : List Char)
    (h : listHasRun pat a = true) : listHasRun pat (a ++ b) = true := by
  induction a with
  | nil =>
    cases pat with
    | nil => simpa using listHasRun_nil_pat b
    | cons c cs => simp [listHasRun, listStartsWith] at h
  | cons d ds ih =>
    simp only [listHasRun, Bool.or_eq_true] at h
    simp only [List.cons_append, listHasRun, Bool.or_eq_true]
    rcases h with h | h
    · exact Or.inl (by simpa using listStartsWith_append pat (d :: ds) b h)
    · exact Or.inr (ih h)

theorem jsIncludes_append_left (a b sub : String)
    (h : jsIncludes a sub = true) : jsIncludes (a ++ b) sub = true := by
  have hd : (a ++ b).data = a.data ++ b.data := rfl
  unfold jsIncludes at h ⊢
  rw [hd]
  exact listHasRun_append _ _ _ h

/-- Runtime JSON values: what `JSON.parse` returns on success.  The TypeScript
annotation `PaperAnalysis` on the parsed value is compile-time only and is
erased at runtime, so the embedding works with this type throughout. -/
inductive Json where
  | null
  | bool (b : Bool)
  | num (n : Int)
  | str (s : String)
  | arr (elems : List Json)
  | obj (fields : List (String × Json))

/-- JSON string quoting (model of the string case of `JSON.stringify`). -/
def escapeJsonChar (c : Char) : String :=
  if c = '\\' then "\\\\"
  else if c = '"' then "\\\""
  else String.singleton c

def jsonQuote (s : String) : String :=
  "\"" ++ String.join (s.data.map escapeJsonChar) ++ "\""

mutual

/-- Model of `JSON.stringify` on runtime JSON values. -/
def jsonStringify : Json → String
  | .null => "null"
  | .bool b => if b then "true" else "false"
  | .num n => toString n
  | .str s => jsonQuote s
  | .arr xs => "[" ++ jsonStringifyList xs ++ "]"
  | .obj kvs => "\x7b" ++ jsonStringifyKVs kvs ++ "\x7d"

def jsonStringifyList : List Json → String
  | [] => ""
  | [x] => jsonStringify x
  | x :: y :: t => jsonStringify x ++ "," ++ jsonStringifyList (y :: t)

def jsonStringifyKVs : List (String × Json) → String
  | [] => ""
  | [(k, v)] => jsonQuote k ++ ":" ++ jsonStringify v
  | (k, v) :: y :: t => jsonQuote k ++ ":" ++ jsonStringify v ++ "," ++ jsonStringifyKVs (y :: t)

end

/-! ## geminiService.ts -/

/-- Field lookup on a JSON object value. -/
def Json.lookupField (j : Json) (k : String) : Option Json :=
  match j with
  | .obj kvs => kvs.lookup k
  | _ => none

def isStringJson : Option Json → Bool
  | some (.str _) => true
  | _ => false

def isStringArrayJson : Option Json → Bool
  | some (.arr xs) =>
      xs.all fun x => match x with | .str _ => true | _ => false
  | _ => false

/-- Conformance to `analysisSchema` (geminiService.ts lines 18-46): an object
carrying all five required fields — problemSolved and summary as strings,
innovations, comparisonMethods and limitations as arrays of strings. -/
def conformsToSchema (j : Json) : Bool :=
  match j with
  | .obj _ =>
      isStringJson (j.lookupField "problemSolved") &&
      isStringArrayJson (j.lookupField "innovations") &&
      isStringArrayJson (j.lookupField "comparisonMethods") &&
      isStringArrayJson (j.lookupField "limitations") &&
      isStringJson (j.lookupField "summary")
  | _ => false

/-- Errors thrown by the service layer.  The source throws plain `Error`
values; the constructors record which throw site (which "failure kind")
produced the message, and `message` recovers the `Error.message` field. -/
inductive SvcError where
  | missingCredential (msg : String)
  | noResponse (msg : String)
  | jsonParseError (msg : String)
  | upstream (msg : String)

def SvcError.message : SvcError → String
  | .missingCredential m => m
  | .noResponse m => m
  | .jsonParseError m => m
  | .upstream m => m

/-- A remote reply as seen after the `response.text` read and the `JSON.parse`
attempt: the text may be absent or empty (`!text`), may fail to parse
(`JSON.parse` throws a SyntaxError), or parses to a JSON value. -/
inductive ParsedPayload where
  | noText
  | invalidJson (msg : String)
  | json (j : Json)

/-- Outcome of one `ai.models.generateContent` call: the awaited promise
either rejects with an error or resolves with a response. -/
inductive RemoteOutcome where
  | netError (msg : String)
  | reply (p : ParsedPayload)

/-- `analyzePaper`'s handling of a received response (geminiService.ts
lines 81-90): `!text` throws "No response received from Gemini.", otherwise
the text is `JSON.parse`d and returned; the `as PaperAnalysis` cast is
compile-time only, so no runtime field validation happens on success. -/
def analyzePaperResponse : ParsedPayload → Except SvcError Json
  | .noText => .error (.noResponse "No response received from Gemini.")
  | .invalidJson m => .error (.jsonParseError m)
  | .json j => .ok j

/-- `translateAnalysis`'s handling of a received response (geminiService.ts
lines 122-131): identical shape to `analyzePaperResponse`, and likewise no
runtime validation of the returned structure. -/
def translateAnalysisResponse : ParsedPayload → Except SvcError Json
  | .noText => .error (.noResponse "No response received from Gemini.")
  | .invalidJson m => .error (.jsonParseError m)
  | .json j => .ok j

/-- Externally observable actions of the service layer, in program order:
reading the selected file into base64 (the document bytes leaving the file),
and the two remote `generateContent` calls (the bytes, resp. the translation
prompt, being transmitted). -/
inductive SvcAction where
  | readFileBase64 (fileId : Nat)
  | generateAnalyze (fileId : Nat)
  | generateTranslate (prompt : String)

/-- JS falsiness of the `process.env.API_KEY` read (`!apiKey`): the credential
is missing when the variable is unset or the empty string. -/
def credentialMissing : Option String → Bool
  | none => true
  | some k => k == ""

/-- The fixed text of the translation prompt template (geminiService.ts
lines 104-110) up to the interpolated `JSON.stringify(data)`. -/
def translatePromptHead : String :=
  "Translate the values of the following JSON object into simplified Chinese. \n            Maintain the exact same JSON structure and keys. Do not translate the keys.\n            Ensure the tone is professional and academic.\n\n            Input JSON:\n            "

/-- The full prompt `translateAnalysis` builds for record `d`.  It takes no
target-language argument: the target is fixed by the template text. -/
def translateRequestPrompt (d : Json) : String :=
  translatePromptHead ++ jsonStringify d

/-- geminiService.analyzePaper (lines 48-91): the credential check precedes
every other action; then the file is read to base64, the remote call is
issued, and the response is handled; a rejecting remote call is rethrown.
Returns the thrown-or-returned result together with the external actions
performed, in order. -/
def analyzePaperSvc (apiKey : Option String) (fileId : Nat)
    (remote : RemoteOutcome) : Except SvcError Json × List SvcAction :=
  if credentialMissing apiKey then
    (.error (.missingCredential
      "API Key is missing. Please check your environment configuration."), [])
  else
    let acts := [SvcAction.readFileBase64 fileId, SvcAction.generateAnalyze fileId]
    match remote with
    | .netError m => (.error (.upstream m), acts)
    | .reply p => (analyzePaperResponse p, acts)

/-- geminiService.translateAnalysis (lines 93-132): credential check first,
then one remote call carrying the hardcoded simplified-Chinese prompt. -/
def translateAnalysisSvc (apiKey : Option String) (d : Json)
    (remote : RemoteOutcome) : Except SvcError Json × List SvcAction :=
  if credentialMissing apiKey then
    (.error (.missingCredential "API Key is missing."), [])
  else
    let acts := [SvcAction.generateTranslate (translateRequestPrompt d)]
    match remote with
    | .netError m => (.error (.upstream m), acts)
    | .reply p => (translateAnalysisResponse p, acts)

/-! ## App.tsx — application controller -/

/-- The controller's two language values, exactly as typed in App.tsx,
line 19: useState of the union type of the literals en and zh. -/
inductive Lang where
  | en
  | zh
deriving DecidableEq

/-- types.ts `AnalysisState`, with `data` at its runtime type (the value a
successful `JSON.parse` actually produced). -/
structure AppAnalysisState where
  isLoading : Bool
  error : Option String
  data : Option Json

/-- The controller's state: the `AnalysisState` record plus the other
useState hooks of App.tsx.  `nextUrl` is not program state; it models the
freshness of identifiers handed out by `URL.createObjectURL`. -/
structure AppState where
  state : AppAnalysisState
  fileName : Option String
  pdfUrl : Option Nat
  translatedData : Option Json
  language : Lang
  isTranslating : Bool
  nextUrl : Nat

/-- Externally observable actions of the controller, in program order. -/
inductive Action where
  | createURL (fileId url : Nat)
  | revokeURL (url : Nat)
  | analyzeInvoke (fileId : Nat)
  | translateInvoke (d : Json)
  | svc (a : SvcAction)
  | alertMsg (m : String)
  | logError (m : String)

/-- User-driven events, each carrying the oracle outcome of the remote call
the handler would await (unused when no call is issued). -/
inductive Ev where
  | selectFile (fileId : Nat) (name : String) (remote : RemoteOutcome)
  | toggle (target : Lang) (remote : RemoteOutcome)
  | reset

def Ev.isSelect : Ev → Bool
  | .selectFile _ _ _ => true
  | _ => false

def Ev.isReset : Ev → Bool
  | .reset => true
  | _ => false

/-- App.tsx handleFileSelect's catch branch (lines 45-58).  Every failure the
service layer can raise is an `Error` value, so the generic fallback text is
unreachable and the displayed reason is the error's message — except that the
specialized text is substituted whenever the message contains the substring
"API Key" (an `includes` test, not a test of the failure kind). -/
def appErrorMessage (e : SvcError) : String :=
  if jsIncludes e.message "API Key" then
    "Missing API Key. Please verify your settings."
  else e.message

/-- One atomic controller step.  `selectFile` models handleFileSelect
(lines 31-59) together with the commit of the object-URL cleanup effect
(lines 23-29) that the `pdfUrl` change triggers: the handler revokes the
previous URL explicitly, creates the new one, and the effect cleanup revokes
the previous URL again.  `toggle` models handleLanguageToggle (lines 69-87);
`reset` models handleReset (lines 61-67) plus the same effect cleanup. -/
def step (apiKey : Option String) (s : AppState) : Ev → AppState × List Action
  | .selectFile fileId name remote =>
      let explicitRevoke : List Action :=
        match s.pdfUrl with | some u => [.revokeURL u] | none => []
      let url := s.nextUrl
      let effectCleanup : List Action :=
        match s.pdfUrl with | some u => [.revokeURL u] | none => []
      let res := (analyzePaperSvc apiKey fileId remote).1
      let svcActs := (analyzePaperSvc apiKey fileId remote).2
      let st : AppAnalysisState :=
        match res with
        | .ok j => { isLoading := false, error := none, data := some j }
        | .error e => { isLoading := false, error := some (appErrorMessage e), data := none }
      ({ state := st, fileName := some name, pdfUrl := some url,
         translatedData := none, language := .en,
         isTranslating := s.isTranslating, nextUrl := s.nextUrl + 1 },
       explicitRevoke ++ [.createURL fileId url] ++ effectCleanup
         ++ [.analyzeInvoke fileId] ++ svcActs.map .svc)
  | .toggle target remote =>
      if target = s.language then (s, [])
      else
        match s.translatedData, s.state.data with
        | none, some d =>
            if target = .zh then
              let res := (translateAnalysisSvc apiKey d remote).1
              let svcActs := (translateAnalysisSvc apiKey d remote).2
              let pre := Action.translateInvoke d :: svcActs.map .svc
              match res with
              | .ok r =>
                  ({ s with translatedData := some r, language := .zh,
                            isTranslating := false }, pre)
              | .error e =>
                  ({ s with isTranslating := false },
                   pre ++ [.logError ("Translation failed: " ++ e.message),
                           .alertMsg "Translation failed. Please try again."])
            else ({ s with language := target }, [])
        | _, _ => ({ s with language := target }, [])
  | .reset =>
      let cleanup : List Action :=
        match s.pdfUrl with | some u => [.revokeURL u] | none => []
      ({ state := { isLoading := false, error := none, data := none },
         fileName := none, pdfUrl := none, translatedData := none,
         language := .en, isTranslating := s.isTranslating,
         nextUrl := s.nextUrl }, cleanup)

/-- The initial controller state (all hooks at their initial values). -/
def initApp : AppState :=
  { state := { isLoading := false, error := none, data := none },
    fileName := none, pdfUrl := none, translatedData := none,
    language := .en, isTranslating := false, nextUrl := 0 }

/-- Run a sequence of events, accumulating the emitted actions. -/
def runApp (apiKey : Option String) : AppState → List Ev → AppState × List Action
  | s, [] => (s, [])
  | s, e :: es =>
      let p := step apiKey s e
      let q := runApp apiKey p.1 es
      (q.1, p.2 ++ q.2)

/-- App.tsx `currentAnalysis` selector (line 89): the displayed record. -/
def currentAnalysis (s : AppState) : Option Json :=
  match s.language, s.translatedData with
  | .zh, some t => some t
  | _, _ => s.state.data

def countAnalyze (acts : List Action) : Nat :=
  acts.countP fun a => match a with | .analyzeInvoke _ => true | _ => false

def countTranslate (acts : List Action) : Nat :=
  acts.countP fun a => match a with | .translateInvoke _ => true | _ => false

def countRevoke (u : Nat) (acts : List Action) : Nat :=
  acts.countP fun a => match a with | .revokeURL v => v == u | _ => false

def translateInvokes (acts : List Action) : List Json :=
  acts.filterMap fun a => match a with | .translateInvoke d => some d | _ => none

/-! ## FileUpload.tsx -/

/-- A browser `File` as far as the upload surface inspects it: its name and
its MIME type (`file.type`). -/
structure JsFile where
  name : String
  mime : String
deriving DecidableEq

inductive UploadAction where
  | forwardSelect (f : JsFile)
  | alertMsg (m : String)
deriving DecidableEq

/-- FileUpload.handleDrop (lines 21-33): the first dropped file is forwarded
to `onFileSelect` only when its MIME type is exactly application/pdf;
otherwise an alert is shown and nothing is forwarded. -/
def handleDrop (files : List JsFile) : List UploadAction :=
  match files with
  | [] => []
  | f :: _ =>
      if f.mime = "application/pdf" then [.forwardSelect f]
      else [.alertMsg "Please upload a PDF file."]

/-- FileUpload.handleChange (lines 35-40): the first file chosen through the
picker is forwarded with no type check at all — the input element's
accept=".pdf" attribute only filters the dialog's default suggestion. -/
def handleChange (files : List JsFile) : List UploadAction :=
  match files with
  | [] => []
  | f :: _ => [.forwardSelect f]

/-! ## PdfViewer.tsx — page state -/

def isJsSpace (c : Char) : Bool :=
  c == ' ' || c == '\t' || c == '\n' || c == '\r'

def digitsToNat (ds : List Char) : Nat :=
  ds.foldl (fun acc c => acc * 10 + (c.toNat - 48)) 0

def hexDigitVal (c : Char) : Option Nat :=
  if c.isDigit then some (c.toNat - 48)
  else if 'a' ≤ c ∧ c ≤ 'f' then some (c.toNat - 87)
  else if 'A' ≤ c ∧ c ≤ 'F' then some (c.toNat - 55)
  else none

def parseUnsigned (cs : List Char) : Option Nat :=
  match cs with
  | '0' :: 'x' :: rest =>
      let ds := rest.takeWhile fun c => (hexDigitVal c).isSome
      if ds = [] then none else some (ds.foldl (fun acc c => acc * 16 + ((hexDigitVal c).getD 0)) 0)
  | '0' :: 'X' :: rest =>
      let ds := rest.takeWhile fun c => (hexDigitVal c).isSome
      if ds = [] then none else some (ds.foldl (fun acc c => acc * 16 + ((hexDigitVal c).getD 0)) 0)
  | _ =>
      let ds := cs.takeWhile Char.isDigit
      if ds = [] then none else some (digitsToNat ds)

/-- Model of JavaScript `parseInt(s)` with no radix argument: leading
whitespace is skipped, an optional sign is read, a 0x/0X prefix switches to
hexadecimal, and the longest leading digit run is converted; `none` models
NaN (no digits at all). -/
def jsParseInt (s : String) : Option Int :=
  match s.data.dropWhile isJsSpace with
  | '-' :: rest => (parseUnsigned rest).map fun n => -(n : Int)
  | '+' :: rest => (parseUnsigned rest).map fun n => (n : Int)
  | cs => (parseUnsigned cs).map fun n => (n : Int)

/-- True when the string is a nonempty run of decimal digits. -/
def isDigitEntry (str : String) : Bool :=
  decide (str.data ≠ []) && str.data.all Char.isDigit

/-- The viewer's page-related state: pageNum, the text of the page-number
input, and numPages. -/
structure ViewerState where
  pageNum : Int
  pageInput : String
  numPages : Int
deriving DecidableEq

/-- setPageNum plus the input-sync effect (PdfViewer.tsx lines 103-105): the
effect rewrites the input field only when pageNum actually changes (React
skips the re-render, hence the effect, on an identical state value). -/
def setPage (s : ViewerState) (p : Int) : ViewerState :=
  if p = s.pageNum then s else { s with pageNum := p, pageInput := toString p }

/-- PdfViewer.changePage (lines 162-168): clamp pageNum + delta into
[1, numPages]. -/
def changePage (s : ViewerState) (delta : Int) : ViewerState :=
  setPage s (min (max 1 (s.pageNum + delta)) s.numPages)

/-- PdfViewer.handlePageSubmit (lines 170-181): parseInt the entry; accept it
when it is a number within [1, numPages], otherwise reset the input text to
the current page and leave the page unchanged. -/
def handlePageSubmit (s : ViewerState) : ViewerState :=
  match jsParseInt s.pageInput with
  | some p =>
      if 1 ≤ p ∧ p ≤ s.numPages then setPage s p
      else { s with pageInput := toString s.pageNum }
  | none => { s with pageInput := toString s.pageNum }

/-- PdfViewer wheel handler (lines 108-159), page-navigation part: ctrl-wheel
only zooms (no page change, zoom scale out of scope here), navigation is
ignored while loading, and otherwise a wheel at the bottom/top edge moves one
page forward/backward within bounds. -/
def wheelNav (s : ViewerState) (deltaY : Int)
    (ctrlKey loadingV isAtTop isAtBottom : Bool) : ViewerState :=
  if ctrlKey = true then s
  else if loadingV = true then s
  else if 0 < deltaY ∧ isAtBottom = true then
    (if s.pageNum < s.numPages then setPage s (s.pageNum + 1) else s)
  else if deltaY < 0 ∧ isAtTop = true then
    (if 1 < s.pageNum then setPage s (s.pageNum - 1) else s)
  else s

/-! ## PdfViewer.tsx — renderPage cancellation protocol

renderPage (lines 57-95) is an async function with three suspension points:
the `await` of the previous task's cancel, the `await` of `pdfDoc.getPage`,
and the `await` of the render task's promise.  The model below runs the
handler's synchronous segments as atomic scheduler steps between those
suspension points (the short cancel segment is fused with the issue of
getPage, which loses no claim-relevant interleaving), with the decisive
feature of the source kept intact: the render task is stored into
`renderTaskRef` only after getPage resolves, so only a task that has reached
that point can ever be cancelled by a later invocation. -/

structure RParams where
  page : Int
  scalePct : Nat
deriving DecidableEq

inductive TaskStatus where
  | running
  | cancelled
  | completed
deriving DecidableEq

inductive ProcPhase where
  | entered
  | awaitingGetPage
  | awaitingRender (taskId : Nat)
  | done
deriving DecidableEq

/-- One renderPage invocation: the (pageNum, scale) it captured and how far
it has run. -/
structure RenderProc where
  params : RParams
  phase : ProcPhase
deriving DecidableEq

/-- The viewer's render-relevant mutable state: the invocations, the render
tasks created so far (position = task id), `renderTaskRef.current`, the
bitmaps applied to the canvas in order, and the console error log. -/
structure RenderSys where
  procs : List RenderProc
  taskParams : List RParams
  taskStatus : List TaskStatus
  refTask : Option Nat
  applied : List RParams
deriving DecidableEq

inductive RStep where
  | enter (proc : Nat)
  | getPageResume (proc : Nat)
  | settleTask (tid : Nat)

/-- One scheduler step.  `enter i`: invocation i runs from its entry to the
getPage suspension — it cancels the task currently in renderTaskRef if that
task is still running (lines 61-67), then calls getPage.  `getPageResume i`:
getPage resolved — the canvas is resized, `page.render` starts a fresh task,
the task is stored in renderTaskRef (lines 70-93), and the invocation
suspends on the task's promise.  `settleTask t`: a running task paints (its
bitmap is applied) and resolves; a cancelled task rejects with
RenderingCancelledException, which the catch recognizes by name and swallows
silently (lines 88-93) — nothing applied, nothing logged. -/
def rstep (sys : RenderSys) : RStep → RenderSys
  | .enter i =>
      match sys.procs.get? i with
      | some pr =>
          if pr.phase = .entered then
            let sys' :=
              match sys.refTask with
              | some t =>
                  if sys.taskStatus.get? t = some TaskStatus.running then
                    { sys with taskStatus := sys.taskStatus.set t .cancelled }
                  else sys
              | none => sys
            { sys' with procs := sys.procs.set i { pr with phase := .awaitingGetPage } }
          else sys
      | none => sys
  | .getPageResume i =>
      match sys.procs.get? i with
      | some pr =>
          if pr.phase = .awaitingGetPage then
            let tid := sys.taskParams.length
            { sys with
                taskParams := sys.taskParams ++ [pr.params],
                taskStatus := sys.taskStatus ++ [.running],
                refTask := some tid,
                procs := sys.procs.set i { pr with phase := .awaitingRender tid } }
          else sys
      | none => sys
  | .settleTask t =>
      match sys.taskStatus.get? t, sys.taskParams.get? t with
      | some .running, some p =>
          { sys with
              taskStatus := sys.taskStatus.set t .completed,
              applied := sys.applied ++ [p],
              procs := sys.procs.map fun pr =>
                if pr.phase = .awaitingRender t then { pr with phase := .done } else pr }
      | some .cancelled, some _ =>
          { sys with
              procs := sys.procs.map fun pr =>
                if pr.phase = .awaitingRender t then { pr with phase := .done } else pr }
      | _, _ => sys

def runRender (sys : RenderSys) : List RStep → RenderSys
  | [] => sys
  | st :: rest => runRender (rstep sys st) rest

/-- Two renderPage invocations: invocation 0 (the prior call, parameters p1)
and invocation 1 (the second call, parameters p2), neither yet started. -/
def twoRenders (p1 p2 : RParams) : RenderSys :=
  { procs := [⟨p1, .entered⟩, ⟨p2, .entered⟩],
    taskParams := [], taskStatus := [], refTask := none, applied := [] }

/-! ## Shared helper lemmas and concrete fixtures -/

theorem countAnalyze_map_svc (l : List SvcAction) :
    countAnalyze (l.map Action.svc) = 0 := by
  induction l with
  | nil => rfl
  | cons a t ih => simp [countAnalyze, List.countP_cons] at ih ⊢

theorem countTranslate_map_svc (l : List SvcAction) :
    countTranslate (l.map Action.svc) = 0 := by
  induction l with
  | nil => rfl
  | cons a t ih => simp [countTranslate, List.countP_cons] at ih ⊢

theorem countRevoke_map_svc (u : Nat) (l : List SvcAction) :
    countRevoke u (l.map Action.svc) = 0 := by
  induction l with
  | nil => rfl
  | cons a t ih => simp [countRevoke, List.countP_cons] at ih ⊢

theorem translateInvokes_map_svc (l : List SvcAction) :
    translateInvokes (l.map Action.svc) = [] := by
  induction l with
  | nil => rfl
  | cons a t ih => simp [translateInvokes] at ih ⊢

/-- A schema-conforming analysis record, used as a concrete remote reply. -/
def okAnalysisJson : Json :=
  .obj [("problemSolved", .str "p"), ("innovations", .arr [.str "i"]),
        ("comparisonMethods", .arr [.str "c"]), ("limitations", .arr [.str "l"]),
        ("summary", .str "s")]

/-- A Ready-state fixture: one file analyzed, language still en, nothing
translated yet. -/
def readyState : AppState :=
  { state := { isLoading := false, error := none, data := some okAnalysisJson },
    fileName := some "paper.pdf", pdfUrl := some 0,
    translatedData := none, language := .en,
    isTranslating := false, nextUrl := 1 }

/-! ## Claim theorems -/

/-- A session in which the first translate attempt failed and the user
toggled to zh again: select a file (analysis succeeds), toggle to zh (the
remote call rejects), toggle to zh once more (it succeeds). -/
def retryTrace : List Ev :=
  [.selectFile 7 "paper.pdf" (.reply (.json okAnalysisJson)),
   .toggle .zh (.netError "network error"),
   .toggle .zh (.reply (.json okAnalysisJson))]

/-- Claim C1, counterexample: within a single session (one selected file,
one analyze call) the controller invokes translate twice for the same
(file, zh) pair — the first attempt fails, leaves the cache empty, and the
next toggle to zh issues a second translate call.  This refutes the claim's
unconditional "translate at most once per (file, targetLanguage) pair". -/
theorem c1_counterexample :
    countTranslate (runApp (some "key") initApp retryTrace).2 = 2 ∧
    countAnalyze (runApp (some "key") initApp retryTrace).2 = 1 := by
  constructor <;> rfl

/-- A syntactically valid remote reply carrying only one required field. -/
def incompleteJson : Json := .obj [("problemSolved", .str "only one field")]

/-- Claim C5 (code bug): a syntactically valid remote reply that carries only
one of the five required fields is returned as a success by the response
handling of both analyzePaper and translateAnalysis — the `as PaperAnalysis`
cast performs no runtime check — even though it does not conform to
analysisSchema.  The claimed hard SchemaViolation failure does not exist in
the code. -/
theorem c5_no_schema_validation :
    analyzePaperResponse (.json incompleteJson) = .ok incompleteJson ∧
    translateAnalysisResponse (.json incompleteJson) = .ok incompleteJson ∧
    conformsToSchema incompleteJson = false := by
  exact ⟨rfl, rfl, rfl⟩

/-- Claim C2 (code bug): on the racy schedule — the second renderPage
invocation enters while the first is still awaiting getPage — the second
finds nothing in renderTaskRef to cancel, both render tasks run, and BOTH
bitmaps are applied, the first call's last; on the benign schedule, where the
second invocation enters after the first has registered its task, exactly the
second call's bitmap is applied and the first is cancelled silently. -/
theorem c2_render_race :
    (runRender (twoRenders ⟨1, 100⟩ ⟨2, 100⟩)
        [.enter 0, .enter 1, .getPageResume 0, .getPageResume 1,
         .settleTask 1, .settleTask 0]).applied
      = [⟨2, 100⟩, ⟨1, 100⟩] ∧
    (runRender (twoRenders ⟨1, 100⟩ ⟨2, 100⟩)
        [.enter 0, .getPageResume 0, .enter 1, .getPageResume 1,
         .settleTask 0, .settleTask 1]).applied
      = [⟨2, 100⟩] ∧
    (⟨1, 100⟩ : RParams) ≠ ⟨2, 100⟩ := by
  refine ⟨rfl, rfl, by decide⟩

/-- Claim C3, counterexample: replacing a selected file revokes the previous
object URL twice — once explicitly in handleFileSelect and once by the
cleanup of the pdfUrl effect — refuting "never released twice". -/
theorem c3_counterexample :
    countRevoke 0 (runApp (some "key") initApp
      [.selectFile 1 "a.pdf" (.reply (.json okAnalysisJson)),
       .selectFile 2 "b.pdf" (.reply (.json okAnalysisJson))]).2 = 2 := by
  rfl

/-- Claim C7, counterexample: the entry "2abc" is not a digit string, yet
submitting it moves the page from 1 to 2 because parseInt accepts the
leading digits — refuting "a page-number entry ... non-numeric is rejected,
leaving the current page unchanged". -/
theorem c7_counterexample :
    handlePageSubmit ⟨1, "2abc", 5⟩ = ⟨2, "2", 5⟩ ∧
    isDigitEntry "2abc" = false := by
  constructor <;> rfl

/-- Claim C8, counterexample: an upstream failure — not of kind
MissingCredential — whose message happens to contain "API Key" also gets the
specialized message substituted, because the catch branch dispatches on an
`includes("API Key")` substring test rather than on the failure kind; the
Failed reason is then not the failure's message. -/
theorem c8_counterexample :
    (step (some "key") initApp
        (.selectFile 3 "p.pdf" (.netError "server rejected the API Key"))).1.state.error
      = some "Missing API Key. Please verify your settings." ∧
    "Missing API Key. Please verify your settings."
      ≠ "server rejected the API Key" := by
  exact ⟨rfl, by decide⟩

/-- A non-PDF file. -/
def plainTextFile : JsFile := ⟨"notes.txt", "text/plain"⟩

/-- Claim C9, counterexample: the picker's change handler forwards a file of
MIME type text/plain to onFileSelect — selection through the picker is not
rejected and the analysis (Loading) pipeline starts. -/
theorem c9_counterexample :
    handleChange [plainTextFile] = [.forwardSelect plainTextFile] ∧
    plainTextFile.mime ≠ "application/pdf" := by
  exact ⟨rfl, by decide⟩

/-- Claim C6: when the credential is absent (unset or empty), analyzePaper
and translateAnalysis both fail with the MissingCredential error of their
respective throw sites and perform no external action at all — in particular
the file is never read and no document bytes are transmitted. -/
theorem c6_missing_credential (apiKey : Option String) (fileId : Nat) (d : Json)
    (rm rm' : RemoteOutcome) (h : credentialMissing apiKey = true) :
    analyzePaperSvc apiKey fileId rm
      = (.error (.missingCredential
          "API Key is missing. Please check your environment configuration."), []) ∧
    translateAnalysisSvc apiKey d rm'
      = (.error (.missingCredential "API Key is missing."), []) := by
  constructor <;> simp [analyzePaperSvc, translateAnalysisSvc, h]

theorem c6_missing_credential_witness :
    analyzePaperSvc none 1 (.netError "x")
      = (.error (.missingCredential
          "API Key is missing. Please check your environment configuration."), []) ∧
    translateAnalysisSvc none Json.null (.netError "x")
      = (.error (.missingCredential "API Key is missing."), []) :=
  c6_missing_credential none 1 Json.null (.netError "x") (.netError "x") rfl

/-- Claim C4: when the translate call fails, the controller alerts the user
("Translation failed. Please try again."), changes nothing but the
Translating flag — in particular language, the primary record and the cache
are untouched and the primary record is still the displayed one — and ends
with Translating cleared; a successful translate also ends with Translating
cleared. -/
theorem c4_translate_failure (apiKey : Option String) (s : AppState) (d : Json)
    (rm : RemoteOutcome)
    (hl : s.language = .en) (hd : s.state.data = some d)
    (ht : s.translatedData = none) :
    (∀ e, (translateAnalysisSvc apiKey d rm).1 = .error e →
        (step apiKey s (.toggle .zh rm)).1 = { s with isTranslating := false } ∧
        Action.alertMsg "Translation failed. Please try again."
          ∈ (step apiKey s (.toggle .zh rm)).2 ∧
        currentAnalysis (step apiKey s (.toggle .zh rm)).1 = some d) ∧
    (∀ r, (translateAnalysisSvc apiKey d rm).1 = .ok r →
        (step apiKey s (.toggle .zh rm)).1.isTranslating = false) := by
  have hne : ¬ (Lang.zh = s.language) := by rw [hl]; intro h; exact nomatch h
  constructor
  · intro e he
    simp only [step, if_neg hne, ht, hd, he]
    refine ⟨rfl, ?_, ?_⟩
    · simp
    · simp [currentAnalysis, hl, ht]
      exact hd
  · intro r hr
    simp only [step, if_neg hne, ht, hd, hr]
    simp

theorem c4_translate_failure_witness :
    (step (some "key") readyState (.toggle .zh (.netError "boom"))).1
        = { readyState with isTranslating := false } ∧
    Action.alertMsg "Translation failed. Please try again."
        ∈ (step (some "key") readyState (.toggle .zh (.netError "boom"))).2 := by
  have h := (c4_translate_failure (some "key") readyState okAnalysisJson
      (.netError "boom") rfl rfl rfl).1 (SvcError.upstream "boom") rfl
  exact ⟨h.1, h.2.1⟩

/-- Claim C8 (amended): the Failed reason is the analyze failure's message,
except that the specialized "Missing API Key. Please verify your settings."
is substituted exactly when the message contains the substring "API Key" —
which is the case for the service's MissingCredential failure, but can also
trigger for failures of other kinds whose message mentions that substring. -/
theorem c8_failed_reason (apiKey : Option String) (s : AppState)
    (fid : Nat) (nm m : String) :
    (jsIncludes m "API Key" = false → credentialMissing apiKey = false →
      (step apiKey s (.selectFile fid nm (.netError m))).1.state.error = some m) ∧
    (credentialMissing apiKey = true →
      ∀ rm, (step apiKey s (.selectFile fid nm rm)).1.state.error
        = some "Missing API Key. Please verify your settings.") := by
  constructor
  · intro hni hc
    simp [step, analyzePaperSvc, hc, appErrorMessage, SvcError.message, hni]
  · intro hc rm
    simp [step, analyzePaperSvc, hc, appErrorMessage, SvcError.message]
    rfl

theorem c8_failed_reason_witness :
    (step (some "key") initApp (.selectFile 3 "p.pdf" (.netError "boom"))).1.state.error
      = some "boom" :=
  (c8_failed_reason (some "key") initApp 3 "p.pdf" "boom").1 rfl rfl

/-- Claim C9 (amended): the drag-drop surface rejects a non-PDF MIME type
with a user-visible alert and forwards nothing (so no Loading transition can
start from a drop), and forwards a PDF file; the picker's change handler,
however, forwards the first chosen file without any MIME check. -/
theorem c9_mime_filter (f : JsFile) (rest : List JsFile) :
    (f.mime ≠ "application/pdf" →
        handleDrop (f :: rest) = [.alertMsg "Please upload a PDF file."]) ∧
    (f.mime = "application/pdf" → handleDrop (f :: rest) = [.forwardSelect f]) ∧
    handleChange (f :: rest) = [.forwardSelect f] := by
  refine ⟨fun h => ?_, fun h => ?_, rfl⟩ <;> simp [handleDrop, h]

def pdfFile : JsFile := ⟨"paper.pdf", "application/pdf"⟩

theorem c9_mime_filter_witness :
    handleDrop [pdfFile] = [.forwardSelect pdfFile] :=
  (c9_mime_filter pdfFile []).2.1 rfl

theorem setPage_pageNum (s : ViewerState) (p : Int) : (setPage s p).pageNum = p := by
  unfold setPage
  split
  · next h => exact h.symm
  · rfl

theorem setPage_numPages (s : ViewerState) (p : Int) :
    (setPage s p).numPages = s.numPages := by
  unfold setPage
  split <;> rfl

def pageInRange (s : ViewerState) : Prop :=
  1 ≤ s.pageNum ∧ s.pageNum ≤ s.numPages

/-- Claim C7 (amended): with at least one page, every page-changing operation
— changePage, wheel navigation and page-number submission — keeps currentPage
within [1, pageCount]; a submitted entry whose parseInt value is NaN or out
of range is rejected with the page unchanged.  (An entry with an in-range
numeric prefix followed by trailing garbage, such as "2abc", is accepted as
that number — see the counterexample.) -/
theorem c7_page_bounds (s : ViewerState) (delta deltaY : Int)
    (ck lv t b : Bool)
    (hn : 1 ≤ s.numPages) (h1 : 1 ≤ s.pageNum) (h2 : s.pageNum ≤ s.numPages) :
    pageInRange (changePage s delta) ∧
    pageInRange (wheelNav s deltaY ck lv t b) ∧
    pageInRange (handlePageSubmit s) ∧
    ((jsParseInt s.pageInput = none ∨
        ∃ p, jsParseInt s.pageInput = some p ∧ (p < 1 ∨ s.numPages < p)) →
      (handlePageSubmit s).pageNum = s.pageNum) := by
  refine ⟨?_, ?_, ?_, ?_⟩
  · unfold changePage pageInRange
    rw [setPage_pageNum, setPage_numPages]
    exact ⟨le_min (le_max_left 1 _) hn, min_le_right _ _⟩
  · unfold wheelNav pageInRange
    split_ifs <;>
      (try simp only [setPage_pageNum, setPage_numPages]) <;> omega
  · unfold handlePageSubmit pageInRange
    cases hjp : jsParseInt s.pageInput with
    | none => exact ⟨h1, h2⟩
    | some p =>
        simp only []
        split_ifs with hin
        · rw [setPage_pageNum, setPage_numPages]
          exact hin
        · exact ⟨h1, h2⟩
  · intro hrej
    unfold handlePageSubmit
    cases hjp : jsParseInt s.pageInput with
    | none => rfl
    | some p =>
        rcases hrej with h | ⟨q, hq, hout⟩
        · rw [hjp] at h; exact absurd h (by simp)
        · rw [hjp] at hq
          injection hq with hq
          subst hq
          simp only []
          split_ifs with hin
          · omega
          · rfl

theorem c7_page_bounds_witness :
    pageInRange (changePage ⟨2, "abc", 5⟩ 100) ∧
    pageInRange (handlePageSubmit ⟨2, "abc", 5⟩) ∧
    (handlePageSubmit (⟨2, "abc", 5⟩ : ViewerState)).pageNum = (2 : Int) := by
  have h := c7_page_bounds ⟨2, "abc", 5⟩ 100 1 false false false false
      (by decide) (by decide) (by decide)
  exact ⟨h.1, h.2.2.1, h.2.2.2 (Or.inl rfl)⟩

theorem countAnalyze_nil : countAnalyze [] = 0 := rfl

theorem countAnalyze_append (l1 l2 : List Action) :
    countAnalyze (l1 ++ l2) = countAnalyze l1 + countAnalyze l2 := by
  simp [countAnalyze, List.countP_append]

theorem countAnalyze_cons (a : Action) (l : List Action) :
    countAnalyze (a :: l)
      = countAnalyze l
        + (if (match a with | Action.analyzeInvoke _ => true | _ => false) = true
           then 1 else 0) := by
  simp [countAnalyze, List.countP_cons]

theorem countTranslate_nil : countTranslate [] = 0 := rfl

theorem countTranslate_append (l1 l2 : List Action) :
    countTranslate (l1 ++ l2) = countTranslate l1 + countTranslate l2 := by
  simp [countTranslate, List.countP_append]

theorem countTranslate_cons (a : Action) (l : List Action) :
    countTranslate (a :: l)
      = countTranslate l
        + (if (match a with | Action.translateInvoke _ => true | _ => false) = true
           then 1 else 0) := by
  simp [countTranslate, List.countP_cons]

theorem countRevoke_nil (u : Nat) : countRevoke u [] = 0 := rfl

theorem countRevoke_append (u : Nat) (l1 l2 : List Action) :
    countRevoke u (l1 ++ l2) = countRevoke u l1 + countRevoke u l2 := by
  simp [countRevoke, List.countP_append]

theorem countRevoke_cons (u : Nat) (a : Action) (l : List Action) :
    countRevoke u (a :: l)
      = countRevoke u l
        + (if (match a with | Action.revokeURL v => v == u | _ => false) = true
           then 1 else 0) := by
  simp [countRevoke, List.countP_cons]

theorem countAnalyze_select (apiKey : Option String) (s : AppState)
    (fid : Nat) (nm : String) (rm : RemoteOutcome) :
    countAnalyze (step apiKey s (.selectFile fid nm rm)).2 = 1 := by
  cases hp : s.pdfUrl <;>
    simp [step, hp, countAnalyze_append, countAnalyze_cons, countAnalyze_nil,
          countAnalyze_map_svc]

theorem countTranslate_select (apiKey : Option String) (s : AppState)
    (fid : Nat) (nm : String) (rm : RemoteOutcome) :
    countTranslate (step apiKey s (.selectFile fid nm rm)).2 = 0 := by
  cases hp : s.pdfUrl <;>
    simp [step, hp, countTranslate_append, countTranslate_cons, countTranslate_nil,
          countTranslate_map_svc]

theorem countAnalyze_reset (apiKey : Option String) (s : AppState) :
    countAnalyze (step apiKey s .reset).2 = 0 := by
  cases hp : s.pdfUrl <;>
    simp [step, hp, countAnalyze_cons, countAnalyze_nil]

theorem countTranslate_reset (apiKey : Option String) (s : AppState) :
    countTranslate (step apiKey s .reset).2 = 0 := by
  cases hp : s.pdfUrl <;>
    simp [step, hp, countTranslate_cons, countTranslate_nil]

/-- Shape of the action list of a toggle step: either nothing happens, or a
single translate invocation is issued (followed only by its service actions
and, on failure, the console log and the alert). -/
theorem toggle_acts_cases (apiKey : Option String) (s : AppState)
    (tg : Lang) (rm : RemoteOutcome) :
    (step apiKey s (.toggle tg rm)).2 = [] ∨
    ∃ d, s.translatedData = none ∧ s.state.data = some d ∧
      ((step apiKey s (.toggle tg rm)).2
          = Action.translateInvoke d :: (translateAnalysisSvc apiKey d rm).2.map Action.svc ∨
       ∃ e, (step apiKey s (.toggle tg rm)).2
          = (Action.translateInvoke d :: (translateAnalysisSvc apiKey d rm).2.map Action.svc)
            ++ [.logError ("Translation failed: " ++ SvcError.message e),
                .alertMsg "Translation failed. Please try again."]) := by
  by_cases htg : tg = s.language
  · left; simp [step, htg]
  · cases htd : s.translatedData with
    | some r => left; simp [step, htg, htd]
    | none =>
        cases hdd : s.state.data with
        | none => left; simp [step, htg, htd, hdd]
        | some d =>
            by_cases hz : tg = Lang.zh
            · subst hz
              cases hres : (translateAnalysisSvc apiKey d rm).1 with
              | ok r =>
                  right
                  exact ⟨d, rfl, rfl, Or.inl (by simp [step, htg, htd, hdd, hres])⟩
              | error e =>
                  right
                  exact ⟨d, rfl, rfl, Or.inr ⟨e, by simp [step, htg, htd, hdd, hres]⟩⟩
            · left; simp [step, htg, htd, hdd, hz]

theorem countAnalyze_toggle (apiKey : Option String) (s : AppState)
    (tg : Lang) (rm : RemoteOutcome) :
    countAnalyze (step apiKey s (.toggle tg rm)).2 = 0 := by
  rcases toggle_acts_cases apiKey s tg rm with h | ⟨d, _, _, h | ⟨e, h⟩⟩ <;>
    simp [h, countAnalyze_append, countAnalyze_cons, countAnalyze_nil,
          countAnalyze_map_svc]

theorem countRevoke_toggle (apiKey : Option String) (s : AppState)
    (u : Nat) (tg : Lang) (rm : RemoteOutcome) :
    countRevoke u (step apiKey s (.toggle tg rm)).2 = 0 := by
  rcases toggle_acts_cases apiKey s tg rm with h | ⟨d, _, _, h | ⟨e, h⟩⟩ <;>
    simp [h, countRevoke_append, countRevoke_cons, countRevoke_nil,
          countRevoke_map_svc]

/-- With a cached translation, any toggle performs no action at all. -/
theorem toggle_acts_cached (apiKey : Option String) (s : AppState)
    (r : Json) (tg : Lang) (rm : RemoteOutcome)
    (htd : s.translatedData = some r) :
    (step apiKey s (.toggle tg rm)).2 = [] := by
  by_cases htg : tg = s.language
  · simp [step, htg]
  · simp [step, htg, htd]

/-- With a cached translation, toggling to zh is an immediate pure language
switch: no actions, and the state changes only in `language`. -/
theorem toggle_cached_step (apiKey : Option String) (s : AppState)
    (r : Json) (rm : RemoteOutcome) (htd : s.translatedData = some r) :
    step apiKey s (.toggle .zh rm) = ({ s with language := .zh }, []) := by
  by_cases htg : Lang.zh = s.language
  · rcases s with ⟨st, fn, pu, td, lg, it, nu⟩
    simp only at htg
    subst htg
    simp [step]
  · simp [step, htg, htd]

/-- Claim C1 (amended): analyze is invoked exactly once per file selection
and by no other event; no translate call is ever issued while a translation
is cached (so at most one translate can succeed per (file, targetLanguage)
pair — a new call only happens after a failure left the cache empty); and
toggling to the target language with a cached translation performs zero
actions — in particular zero remote calls — and switches immediately. -/
theorem c1_single_flight (apiKey : Option String) (s : AppState) (e : Ev) :
    (countAnalyze (step apiKey s e).2 = if e.isSelect = true then 1 else 0) ∧
    (s.translatedData ≠ none → countTranslate (step apiKey s e).2 = 0) ∧
    (∀ r rm, s.translatedData = some r →
        step apiKey s (.toggle .zh rm) = ({ s with language := .zh }, [])) := by
  refine ⟨?_, ?_, ?_⟩
  · cases e with
    | selectFile fid nm rm =>
        simpa [Ev.isSelect] using countAnalyze_select apiKey s fid nm rm
    | toggle tg rm =>
        simpa [Ev.isSelect] using countAnalyze_toggle apiKey s tg rm
    | reset =>
        simpa [Ev.isSelect] using countAnalyze_reset apiKey s
  · intro h
    rcases htd : s.translatedData with _ | r
    · exact absurd htd h
    · cases e with
      | selectFile fid nm rm => exact countTranslate_select apiKey s fid nm rm
      | toggle tg rm =>
          rw [toggle_acts_cached apiKey s r tg rm htd]
          exact countTranslate_nil
      | reset => exact countTranslate_reset apiKey s
  · intro r rm htd
    exact toggle_cached_step apiKey s r rm htd

/-- A Ready state whose zh translation is already cached. -/
def cachedState : AppState :=
  { state := { isLoading := false, error := none, data := some okAnalysisJson },
    fileName := some "paper.pdf", pdfUrl := some 0,
    translatedData := some okAnalysisJson, language := .en,
    isTranslating := false, nextUrl := 1 }

theorem c1_single_flight_witness :
    step (some "key") cachedState (.toggle .zh (.netError "x"))
      = ({ cachedState with language := .zh }, []) :=
  (c1_single_flight (some "key") cachedState (.toggle .zh (.netError "x"))).2.2
    okAnalysisJson (.netError "x") rfl

/-- Claim C3 (amended): per event, the currently held object URL is released
twice on replacement — once by handleFileSelect's explicit revoke and once by
the cleanup of the pdfUrl effect — exactly once on reset, and never
otherwise; a URL that is not the currently held one is never released.  So a
preview URL is always released when its file is replaced or reset (never
left dangling), but on the replacement path the release happens twice, not
exactly once. -/
theorem c3_release_discipline (apiKey : Option String) (s : AppState)
    (e : Ev) (u : Nat) :
    (s.pdfUrl = some u →
      countRevoke u (step apiKey s e).2
        = (if e.isSelect = true then 2 else if e.isReset = true then 1 else 0)) ∧
    (s.pdfUrl ≠ some u → countRevoke u (step apiKey s e).2 = 0) := by
  constructor
  · intro hp
    cases e with
    | selectFile fid nm rm =>
        simp [step, hp, Ev.isSelect, countRevoke_append, countRevoke_cons,
              countRevoke_nil, countRevoke_map_svc]
    | toggle tg rm =>
        simpa [Ev.isSelect, Ev.isReset] using countRevoke_toggle apiKey s u tg rm
    | reset =>
        simp [step, hp, Ev.isSelect, Ev.isReset, countRevoke_cons, countRevoke_nil]
  · intro hnp
    cases e with
    | selectFile fid nm rm =>
        rcases hp : s.pdfUrl with _ | w
        · simp [step, hp, countRevoke_append, countRevoke_cons, countRevoke_nil,
                countRevoke_map_svc]
        · have hw : (w == u) = false := by
            refine beq_eq_false_iff_ne.mpr fun hwu => hnp ?_
            rw [hp, hwu]
          simp [step, hp, hw, countRevoke_append, countRevoke_cons, countRevoke_nil,
                countRevoke_map_svc]
    | toggle tg rm => exact countRevoke_toggle apiKey s u tg rm
    | reset =>
        rcases hp : s.pdfUrl with _ | w
        · simp [step, hp, countRevoke_nil]
        · have hw : (w == u) = false := by
            refine beq_eq_false_iff_ne.mpr fun hwu => hnp ?_
            rw [hp, hwu]
          simp [step, hp, hw, countRevoke_cons, countRevoke_nil]

theorem c3_release_discipline_witness :
    countRevoke 0 (step (some "key") readyState Ev.reset).2
      = (if (Ev.reset).isSelect = true then 2
         else if (Ev.reset).isReset = true then 1 else 0) :=
  (c3_release_discipline (some "key") readyState Ev.reset 0).1 rfl

/-- Claim C10: the translation request's target language is fixed — every
prompt the service builds contains the hardcoded instruction text targeting
simplified Chinese, independent of any argument —, the controller's language
type has exactly the two values en and zh, and a toggle issues the translate
invocation carrying only the current primary record (no language argument
exists to pass). -/
theorem c10_fixed_target :
    (∀ d : Json, jsIncludes (translateRequestPrompt d) "simplified Chinese" = true) ∧
    (∀ l : Lang, l = Lang.en ∨ l = Lang.zh) ∧
    (∀ (apiKey : Option String) (s : AppState) (d : Json) (rm : RemoteOutcome),
        s.language = .en → s.state.data = some d → s.translatedData = none →
        translateInvokes (step apiKey s (.toggle .zh rm)).2 = [d]) := by
  refine ⟨?_, ?_, ?_⟩
  · intro d
    have hhead : jsIncludes translatePromptHead "simplified Chinese" = true := by decide
    exact jsIncludes_append_left translatePromptHead (jsonStringify d) _ hhead
  · intro l
    cases l
    · exact Or.inl rfl
    · exact Or.inr rfl
  · intro apiKey s d rm hl hd ht
    have hne : ¬ (Lang.zh = s.language) := by rw [hl]; intro h; exact nomatch h
    cases hres : (translateAnalysisSvc apiKey d rm).1 <;>
      simp [step, hne, ht, hd, hres, translateInvokes, List.filterMap_append,
            translateInvokes_map_svc]

theorem c10_fixed_target_witness :
    translateInvokes (step (some "key") readyState (.toggle .zh (.netError "x"))).2
      = [okAnalysisJson] :=
  c10_fixed_target.2.2 (some "key") readyState okAnalysisJson (.netError "x")
    rfl rfl rfl

end PaperReader
